import Mathlib

/-!
Verification development for the TTS generation-and-playback pipeline of
bili_voice (src/backend/tts_service.py), shallowly embedded in Lean 4.

The embedding translates the queue classes, the service facade status
logic, the playback worker event flow, the model-selection memoization of
the predict worker, and the health probe into pure Lean functions over
explicit state.  Thread synchronisation (condition variables) is not
modelled: every queue operation in the source runs under the queue lock,
so the sequential functional semantics below is exactly the per-operation
behaviour; a blocking pop is modelled as an Option result, where none
stands for the worker suspending.
-/

/-- Task priority, from enum Priority (HIGH = 0, NORMAL = 1). -/
inductive Priority where
  | high
  | normal
deriving DecidableEq, Repr

/-- A TTS task, from dataclass TtsTask. -/
structure TtsTask where
  text : String
  priority : Priority
  key : Option String
  room_id : Option Int
deriving DecidableEq, Repr

/-- The Python value stored in the private max size field of a queue.  It
may be None, an int, or any non-int object (Python does not restrict the
attribute); the queue recomputes the effective capacity on every push. -/
inductive PyCap where
  | none
  | int (n : Int)
  | other
deriving DecidableEq, Repr

/-- Effective capacity, from the capacity check in both push methods:
cap is the stored value exactly when it is an int greater than zero,
otherwise None (unbounded). -/
def PyCap.eff : PyCap → Option Int
  | .int n => if 0 < n then some n else Option.none
  | _ => Option.none

/-- The stored capacity denotes an unbounded queue: it is None, a
non-positive int, or not an int at all. -/
def PyCap.unbounded : PyCap → Prop
  | .int n => n ≤ 0
  | _ => True

instance : DecidablePred PyCap.unbounded := fun m => by
  cases m <;> simp [PyCap.unbounded] <;> infer_instance

/-- State of the pending-inference queue, from class internal PredictQueue:
two FIFO sub-sequences (head = oldest) plus the stored capacity.  The
eviction callback is not part of the state; push reports the evicted task
so the caller-side callback can be modelled explicitly. -/
structure PredictQueue where
  max_size : PyCap
  high : List TtsTask
  normal : List TtsTask
deriving DecidableEq, Repr

/-- Total occupancy of the predict queue (len high + len normal). -/
def PredictQueue.size (q : PredictQueue) : Nat :=
  q.high.length + q.normal.length

/-- Result of a predict-queue push: the returned bool, the task handed to
the eviction callback (if any), and the new queue state. -/
structure PushResult where
  accepted : Bool
  evicted : Option TtsTask
  queue : PredictQueue
deriving DecidableEq, Repr

/-- Push, from internal PredictQueue.push: when an effective capacity is
set and occupancy is at or above it, a HIGH task evicts the oldest NORMAL
task, else the oldest HIGH task, and is then enqueued (returning True); a
NORMAL task is rejected (returning False, nothing enqueued).  Below
capacity, or with no effective capacity, the task is appended to its
priority sub-sequence and True is returned. -/
def PredictQueue.push (q : PredictQueue) (task : TtsTask) : PushResult :=
  let enqueue : PredictQueue → PushResult := fun q0 =>
    match task.priority with
    | .high => ⟨true, Option.none, { q0 with high := q0.high ++ [task] }⟩
    | .normal => ⟨true, Option.none, { q0 with normal := q0.normal ++ [task] }⟩
  match q.max_size.eff with
  | some cap =>
    if (q.size : Int) ≥ cap then
      match task.priority with
      | .high =>
        match q.normal with
        | v :: rest =>
          let r := enqueue { q with normal := rest }
          { r with evicted := some v }
        | [] =>
          match q.high with
          | v :: rest =>
            let r := enqueue { q with high := rest }
            { r with evicted := some v }
          | [] => enqueue q
      | .normal => ⟨false, Option.none, q⟩
    else enqueue q
  | Option.none => enqueue q

/-- Pop, from internal PredictQueue.pop: the oldest HIGH task if any,
else the oldest NORMAL task; none models the condition wait on an empty
queue. -/
def PredictQueue.pop (q : PredictQueue) : Option (TtsTask × PredictQueue) :=
  match q.high with
  | t :: rest => some (t, { q with high := rest })
  | [] =>
    match q.normal with
    | t :: rest => some (t, { q with normal := rest })
    | [] => Option.none

/-- Repeatedly pop until the queue would block: the full unconsumed
drain order of the queue. -/
def PredictQueue.drain (q : PredictQueue) : List TtsTask :=
  match h : q.pop with
  | some (t, q') => t :: PredictQueue.drain q'
  | Option.none => []
termination_by q.size
decreasing_by
  unfold PredictQueue.pop at h
  rcases hh : q.high with _ | ⟨a, rest⟩ <;> rw [hh] at h
  · rcases hn : q.normal with _ | ⟨b, rest⟩ <;> rw [hn] at h
    · simp at h
    · simp at h
      simp [← h.2, PredictQueue.size, hn, hh]
  · simp at h
    simp [← h.2, PredictQueue.size, hh]

/-- State of the pending-playback queue, from class internal AudioQueue:
one FIFO sequence of (audio, task) pairs plus the stored capacity.  The
audio buffer is opaque, hence the type parameter. -/
structure AudioQueue (α : Type) where
  max_size : PyCap
  q : List (α × TtsTask)
deriving DecidableEq, Repr

/-- Push, from internal AudioQueue.push: when an effective capacity is set
and occupancy is at or above it, the oldest pair is dropped and its task
is handed to the eviction callback; the new pair is always appended.  The
method returns nothing, so the result is (evicted task, new state). -/
def AudioQueue.push (aq : AudioQueue α) (audio : α) (task : TtsTask) :
    Option TtsTask × AudioQueue α :=
  match aq.max_size.eff with
  | some cap =>
    if (aq.q.length : Int) ≥ cap then
      match aq.q with
      | e :: rest => (some e.2, { aq with q := rest ++ [(audio, task)] })
      | [] => (Option.none, { aq with q := aq.q ++ [(audio, task)] })
    else (Option.none, { aq with q := aq.q ++ [(audio, task)] })
  | Option.none => (Option.none, { aq with q := aq.q ++ [(audio, task)] })

/-- Pop, from internal AudioQueue.pop: the oldest pair; none models the
condition wait on an empty queue. -/
def AudioQueue.pop (aq : AudioQueue α) : Option ((α × TtsTask) × AudioQueue α) :=
  match aq.q with
  | e :: rest => some (e, { aq with q := rest })
  | [] => Option.none

/-- Lifecycle status values emitted through emit status. -/
inductive Status where
  | pending
  | playing
  | done
  | cancelled
deriving DecidableEq, Repr

/-- A status event as delivered to the registered listener:
(room id, key, status). -/
structure StatusEvent where
  room : Option Int
  key : Option String
  status : Status
deriving DecidableEq, Repr

/-- The configuration fields of Settings (backend/models.py) that the
enqueue path of TTSService reads.  The two queue-size fields model
getattr with default None: a field holds none when the attribute is
missing or set to None. -/
structure Settings where
  tts_enabled : Bool
  max_tts_queue_size : Option Int
  tts_max_queue_size : Option Int
deriving DecidableEq, Repr

/-- Capacity chosen by enqueue, from the line
max q = getattr max tts queue size or getattr tts max queue size
followed by cap = int of max q if not None: Python `or` takes the first
truthy operand, and 0 is falsy, so a stored 0 falls through to the
second field. -/
def Settings.effCap (s : Settings) : Option Int :=
  match s.max_tts_queue_size with
  | some n => if n ≠ 0 then some n else s.tts_max_queue_size
  | Option.none => s.tts_max_queue_size

/-- Result of the enqueue facade: the returned bool, the new predict
queue state, and the status events emitted, in emission order. -/
structure EnqueueResult where
  accepted : Bool
  queue : PredictQueue
  events : List StatusEvent
deriving DecidableEq, Repr

/-- Enqueue facade, from TTSService.enqueue text (capacity sync, push and
status emission; the text-replacement step earlier in the method only
rewrites the text and emits no events, so the text argument here is the
already-processed text).  The eviction callback wired in the TTSService
constructor emits cancelled for the evicted task with that task's room
and key; it fires inside push, before the pending emission.  On a push
that returns False the caller emits cancelled for the new task only when
its key is not None. -/
def TTSService.enqueue_text (s : Settings) (q : PredictQueue) (text : String)
    (priority : Priority) (key : Option String) (room_id : Option Int) :
    EnqueueResult :=
  if s.tts_enabled = false then ⟨false, q, []⟩
  else
    let cap := s.effCap
    let q1 : PredictQueue :=
      { q with max_size := match cap with
          | some n => PyCap.int n
          | Option.none => PyCap.none }
    let r := q1.push ⟨text, priority, key, room_id⟩
    let evictEvents : List StatusEvent :=
      match r.evicted with
      | some v => [⟨v.room_id, v.key, Status.cancelled⟩]
      | Option.none => []
    if r.accepted then
      ⟨true, r.queue, evictEvents ++ [⟨room_id, key, Status.pending⟩]⟩
    else
      match key with
      | some k => ⟨false, r.queue, evictEvents ++ [⟨room_id, some k, Status.cancelled⟩]⟩
      | Option.none => ⟨false, r.queue, evictEvents⟩

/-- Outcome of the rendering attempts inside the play worker body: either
the winsound call succeeds, or it raises and the ffplay fallback is
consulted (present and succeeding, present and failing, or absent, in
which case the original error is re-raised and caught). -/
inductive RenderOutcome where
  | winsoundOk
  | winsoundFailFfplayOk
  | winsoundFailFfplayFail
  | winsoundFailNoFfplay
deriving DecidableEq, Repr

/-- Status events emitted by one iteration of TTSService play worker for
a popped task, from the worker body: playing is emitted first (its
emission is wrapped so listener errors are swallowed); the render
attempts only log on failure and emit nothing; done is emitted in the
finally block around the render attempts, so it fires on every render
outcome. -/
def TTSService.play_worker_events (task : TtsTask) (outcome : RenderOutcome) :
    List StatusEvent :=
  let playingEv : StatusEvent := ⟨task.room_id, task.key, Status.playing⟩
  let renderEvents : List StatusEvent :=
    match outcome with
    | .winsoundOk => []
    | .winsoundFailFfplayOk => []
    | .winsoundFailFfplayFail => []
    | .winsoundFailNoFfplay => []
  let doneEv : StatusEvent := ⟨task.room_id, task.key, Status.done⟩
  playingEv :: (renderEvents ++ [doneEv])

/-- Python str.strip with no argument: remove leading and trailing
whitespace, used on the configured server url. -/
def pyStrip (s : String) : String :=
  String.mk (((s.data.dropWhile Char.isWhitespace).reverse.dropWhile
    Char.isWhitespace).reverse)

/-- Append a trailing slash unless one is present, from the base url
normalisation in the GradioClient constructor. -/
def ensureSlash (b : String) : String :=
  if b.endsWith "/" then b else b ++ "/"

/-- Strip all trailing slashes, from Python rstrip with a slash. -/
def rstripSlashes (b : String) : String :=
  String.mk ((b.toList.reverse.dropWhile (fun c => c = '/')).reverse)

/-- The configuration fields of Settings that the predict worker and the
HTTP helpers read.  The server url is optional to model the
(cfg.gradio server url or "") guard. -/
structure PredictCfg where
  gradio_server_url : Option String
  sovits_model : String
  gpt_model : String
  text_lang : String
deriving DecidableEq, Repr

/-- Model-selection signature (base, sovits, gpt, text lang), from the
sig tuple in ensure and select models. -/
def PredictCfg.sig (cfg : PredictCfg) (base : String) :
    String × String × String × String :=
  (base, cfg.sovits_model, cfg.gpt_model, cfg.text_lang)

/-- State owned by the predict worker loop: the client (represented by
its stored base url, with the trailing slash the constructor appends) or
None, and the memoized selection signature. -/
structure PWState where
  clientBase : Option String
  selectedSig : Option (String × String × String × String)
deriving DecidableEq, Repr

/-- One call of ensure and select models, from the nested coroutine in
TTSService predict worker.  The boolean argument models whether the two
remote load-weights calls succeed when they are issued.  Returns the new
state, the returned bool, and how many load-weights call pairs were
issued (0 or 1). -/
def ensureAndSelectModels (st : PWState) (cfg : Option PredictCfg)
    (callsSucceed : Bool) : PWState × Bool × Nat :=
  match cfg with
  | Option.none => (st, false, 0)
  | some cfg =>
    let base := pyStrip (cfg.gradio_server_url.getD "")
    if base = "" then (st, false, 0)
    else
      let recreate :=
        match st.clientBase with
        | Option.none => true
        | some cb => rstripSlashes cb ≠ rstripSlashes (ensureSlash base)
      let st1 : PWState :=
        if recreate then ⟨some (ensureSlash base), Option.none⟩ else st
      let sig := cfg.sig base
      if st1.selectedSig = some sig then (st1, true, 0)
      else if callsSucceed then (⟨st1.clientBase, some sig⟩, true, 1)
      else (⟨Option.none, Option.none⟩, false, 1)

/-- Run ensure and select models over a list of (configuration, remote
success) steps, accumulating the total number of load-weights call pairs
issued. -/
def ensureAndSelectRun (st : PWState) :
    List (Option PredictCfg × Bool) → PWState × Nat
  | [] => (st, 0)
  | (cfg, ok) :: rest =>
    let r := ensureAndSelectModels st cfg ok
    let rec' := ensureAndSelectRun r.1 rest
    (rec'.1, r.2.2 + rec'.2)

/-- The cached HTTP helper client: its stored base url and whether its
session is open (close leaves the object in place with the session shut). -/
structure HttpClient where
  base_url : String
  sessionOpen : Bool
deriving DecidableEq, Repr

/-- The module-level globals used by the HTTP helper API: the cached
client and the cached model-selection signature. -/
structure HttpGlobal where
  httpClient : Option HttpClient
  selectedSig : Option (String × String × String × String)
deriving DecidableEq, Repr

/-- Outcome of the single GET issued by the health probe on its fresh
session: an HTTP response with status code and body text, or a raised
exception carrying a message (unreachable server, timeout, and so on). -/
inductive ProbeOutcome where
  | status (code : Nat) (text : String)
  | exn (msg : String)
deriving DecidableEq, Repr

/-- The JSON-serialisable dict returned by the health probe. -/
structure HealthResult where
  ok : Bool
  ready : Bool
  url : String
  message : Option String
deriving DecidableEq, Repr

/-- Health probe, from gradio health: an empty configured url returns a
not-configured message without network traffic; the GET runs on a fresh
session (never the cached one); a 200 yields ok and ready true; any
other status yields ok and ready false with an HTTP message; an
exception yields ok and ready false with the exception message, and in
that branch the function clears the cached selection signature and
closes the cached client session. -/
def gradio_health (settings : PredictCfg) (outcome : ProbeOutcome)
    (g : HttpGlobal) : HealthResult × HttpGlobal :=
  let base := pyStrip (settings.gradio_server_url.getD "")
  if base = "" then
    (⟨false, false, base, some "未配置 WebUI 服务地址"⟩, g)
  else
    match outcome with
    | .status code text =>
      if code = 200 then (⟨true, true, base, Option.none⟩, g)
      else
        (⟨false, false, base,
          some ("HTTP " ++ toString code ++ ": " ++ text.take 120)⟩, g)
    | .exn msg =>
      (⟨false, false, base, some msg⟩,
       ⟨g.httpClient.map (fun c => ⟨c.base_url, false⟩), Option.none⟩)

/-- One call of ensure client and models, the HTTP helper analogue of the
worker coroutine: same structure over the module-level globals, from
the function ensure client and models.  The client object is recreated
when absent or when its base url differs (up to trailing slashes); its
ensure call opens the session; the two load-weights calls are issued only
when the memoized signature differs, and on their failure the function
returns False leaving the signature as it was.  Exceptions raised by the
session-opening ensure call itself propagate to the caller and are not
modelled.  Returns the new globals, the returned bool, and how many
load-weights call pairs were issued. -/
def ensureClientAndModels (g : HttpGlobal) (settings : PredictCfg)
    (callsSucceed : Bool) : HttpGlobal × Bool × Nat :=
  let base := pyStrip (settings.gradio_server_url.getD "")
  if base = "" then (g, false, 0)
  else
    let recreate :=
      match g.httpClient with
      | Option.none => true
      | some c => rstripSlashes c.base_url ≠ rstripSlashes base
    let g1 : HttpGlobal :=
      if recreate then ⟨some ⟨ensureSlash base, false⟩, Option.none⟩ else g
    let g2 : HttpGlobal :=
      ⟨g1.httpClient.map (fun c => ⟨c.base_url, true⟩), g1.selectedSig⟩
    let sig := settings.sig base
    if g2.selectedSig = some sig then (g2, true, 0)
    else if callsSucceed then (⟨g2.httpClient, some sig⟩, true, 1)
    else (g2, false, 1)

/-- Run ensure client and models over a list of (configuration, remote
success) steps, accumulating the total number of load-weights call pairs
issued. -/
def ensureClientRun (g : HttpGlobal) :
    List (PredictCfg × Bool) → HttpGlobal × Nat
  | [] => (g, 0)
  | (settings, ok) :: rest =>
    let r := ensureClientAndModels g settings ok
    let rec' := ensureClientRun r.1 rest
    (rec'.1, r.2.2 + rec'.2)

/-- The HTTP helper globals are synchronised with the configuration: the
cached client exists with an open session and a matching base url, and
the memoized signature equals the configuration signature. -/
def HttpGlobal.syncedWith (g : HttpGlobal) (settings : PredictCfg) : Prop :=
  (∃ b, g.httpClient = some ⟨b, true⟩ ∧
    rstripSlashes b = rstripSlashes (pyStrip (settings.gradio_server_url.getD ""))) ∧
  g.selectedSig = some (settings.sig (pyStrip (settings.gradio_server_url.getD "")))

/-- A queue operation issued by a producer or a worker: push a task or
pop one (a pop on an empty queue blocks, which leaves the state
unchanged in this sequential model). -/
inductive QOp where
  | push (t : TtsTask)
  | pop
deriving DecidableEq, Repr

/-- One operation applied to the predict queue. -/
def PredictQueue.step (q : PredictQueue) : QOp → PredictQueue
  | .push t => (q.push t).queue
  | .pop =>
    match q.pop with
    | some (_, q') => q'
    | Option.none => q

/-- A sequence of operations applied to the predict queue. -/
def PredictQueue.run (q : PredictQueue) : List QOp → PredictQueue
  | [] => q
  | op :: rest => (q.step op).run rest

/-- One operation applied to the playback queue (the audio payload is
irrelevant to occupancy, so pushes carry a unit buffer). -/
def AudioQueue.step (aq : AudioQueue Unit) : QOp → AudioQueue Unit
  | .push t => (aq.push () t).2
  | .pop =>
    match aq.pop with
    | some (_, aq') => aq'
    | Option.none => aq

/-- A sequence of operations applied to the playback queue. -/
def AudioQueue.run (aq : AudioQueue Unit) : List QOp → AudioQueue Unit
  | [] => aq
  | op :: rest => (aq.step op).run rest

/-- The predict worker state is synchronised with configuration cfg: the
client exists and matches the configured base url up to trailing slashes,
and the memoized signature equals the configuration signature. -/
def PWState.syncedWith (st : PWState) (cfg : PredictCfg) : Prop :=
  (∃ cb, st.clientBase = some cb ∧
    rstripSlashes cb =
      rstripSlashes (ensureSlash (pyStrip (cfg.gradio_server_url.getD "")))) ∧
  st.selectedSig = some (cfg.sig (pyStrip (cfg.gradio_server_url.getD "")))

/-- Statement of C2 as written, for the refinement comparison, following
the words of the spec: for a push of any priority, the playback queue
admits, evicts and rejects exactly as the predict queue does on
corresponding states (same capacity, the playback sequence standing for
the combined queue contents). -/
def audioPushMatchesPredict (q : PredictQueue) (aq : AudioQueue Unit)
    (t : TtsTask) : Prop :=
  ((q.push t).accepted = true ↔ (aq.push () t).2.q.length = aq.q.length + 1
      ∨ (aq.push () t).1.isSome) ∧
  ((q.push t).accepted = false →
    (aq.push () t).1 = Option.none ∧ (aq.push () t).2.q = aq.q)

/-! Helper lemmas shared by the claim theorems. -/

theorem ensureAndSelectModels_synced {st : PWState} {cfg : PredictCfg} (b : Bool)
    (hbase : pyStrip (cfg.gradio_server_url.getD "") ≠ "")
    (hsync : st.syncedWith cfg) :
    ensureAndSelectModels st (some cfg) b = (st, true, 0) := by
  obtain ⟨⟨cb, hcb, hrw⟩, hsig⟩ := hsync
  unfold ensureAndSelectModels
  simp [hbase, hcb, hrw, hsig]

theorem ensureAndSelectModels_establishes {st : PWState} {cfg : PredictCfg}
    (hbase : pyStrip (cfg.gradio_server_url.getD "") ≠ "") :
    (ensureAndSelectModels st (some cfg) true).1.syncedWith cfg := by
  unfold ensureAndSelectModels
  rcases hcb : st.clientBase with _ | cb
  · simp [hbase, hcb, PWState.syncedWith]
  · by_cases hrw : rstripSlashes cb =
        rstripSlashes (ensureSlash (pyStrip (cfg.gradio_server_url.getD "")))
    · by_cases hsig : st.selectedSig =
          some (cfg.sig (pyStrip (cfg.gradio_server_url.getD "")))
      · simp [hbase, hcb, hrw, hsig, PWState.syncedWith]
      · simp [hbase, hcb, hrw, hsig, PWState.syncedWith]
    · simp [hbase, hcb, hrw, PWState.syncedWith]

theorem ensureAndSelectModels_count_le_one (st : PWState)
    (cfg : Option PredictCfg) (b : Bool) :
    (ensureAndSelectModels st cfg b).2.2 ≤ 1 := by
  rcases cfg with _ | cfg
  · simp [ensureAndSelectModels]
  · unfold ensureAndSelectModels
    by_cases hbase : pyStrip (cfg.gradio_server_url.getD "") = ""
    · simp [hbase]
    · simp only [hbase, if_false]
      split
      · cases b <;> simp
      · split
        · simp
        · cases b <;> simp

theorem ensureAndSelectRun_synced {cfg : PredictCfg}
    (hbase : pyStrip (cfg.gradio_server_url.getD "") ≠ "") (n : Nat) :
    ∀ st : PWState, st.syncedWith cfg →
      ensureAndSelectRun st (List.replicate n (some cfg, true)) = (st, 0) := by
  induction n with
  | zero => intro st _; rfl
  | succ m ih =>
    intro st hsync
    have hstep := ensureAndSelectModels_synced true hbase hsync
    simp only [List.replicate, ensureAndSelectRun, hstep]
    simp [ih st hsync]

theorem ensureAndSelectRun_base_empty {cfg : PredictCfg}
    (hbase : pyStrip (cfg.gradio_server_url.getD "") = "") (n : Nat) (b : Bool) :
    ∀ st : PWState,
      ensureAndSelectRun st (List.replicate n (some cfg, b)) = (st, 0) := by
  induction n with
  | zero => intro st; rfl
  | succ m ih =>
    intro st
    have hstep : ensureAndSelectModels st (some cfg) b = (st, false, 0) := by
      unfold ensureAndSelectModels
      simp [hbase]
    simp only [List.replicate, ensureAndSelectRun, hstep]
    simp [ih st]


theorem PyCap.eff_of_unbounded {m : PyCap} (h : m.unbounded) :
    m.eff = Option.none := by
  cases m with
  | int n => simp [PyCap.unbounded] at h; simp [PyCap.eff]; omega
  | none => rfl
  | other => rfl

theorem PredictQueue.push_rejected {q : PredictQueue} {t : TtsTask}
    (h : (q.push t).accepted = false) :
    q.push t = ⟨false, Option.none, q⟩ := by
  rcases heff : q.max_size.eff with _ | c
  · cases hp : t.priority <;> simp [PredictQueue.push, heff, hp] at h
  · by_cases hfull : (q.size : Int) ≥ c
    · cases hp : t.priority
      · rcases hn : q.normal with _ | ⟨v, nrest⟩
        · rcases hh : q.high with _ | ⟨w, hrest⟩ <;>
            simp [PredictQueue.push, heff, hp, hn, hh, hfull] at h
        · simp [PredictQueue.push, heff, hp, hn, hfull] at h
      · simp [PredictQueue.push, heff, hp, hfull]
    · cases hp : t.priority <;> simp [PredictQueue.push, heff, hp, hfull] at h

theorem PredictQueue.push_char_full_high_normalCons {q : PredictQueue}
    {t : TtsTask} {c : Int} {v : TtsTask} {nrest : List TtsTask}
    (heff : q.max_size.eff = some c) (hfull : (q.size : Int) ≥ c)
    (hp : t.priority = Priority.high) (hn : q.normal = v :: nrest) :
    q.push t = ⟨true, some v, { q with normal := nrest, high := q.high ++ [t] }⟩ := by
  simp [PredictQueue.push, heff, hfull, hp, hn]

theorem PredictQueue.push_char_full_high_highCons {q : PredictQueue}
    {t : TtsTask} {c : Int} {w : TtsTask} {hrest : List TtsTask}
    (heff : q.max_size.eff = some c) (hfull : (q.size : Int) ≥ c)
    (hp : t.priority = Priority.high) (hn : q.normal = [])
    (hh : q.high = w :: hrest) :
    q.push t = ⟨true, some w, { q with high := hrest ++ [t] }⟩ := by
  simp [PredictQueue.push, heff, hfull, hp, hn, hh]

theorem PredictQueue.push_char_full_high_empty {q : PredictQueue}
    {t : TtsTask} {c : Int}
    (heff : q.max_size.eff = some c) (hfull : (q.size : Int) ≥ c)
    (hp : t.priority = Priority.high) (hn : q.normal = []) (hh : q.high = []) :
    q.push t = ⟨true, Option.none, { q with high := q.high ++ [t] }⟩ := by
  simp [PredictQueue.push, heff, hfull, hp, hn, hh]

theorem PredictQueue.push_char_full_normal {q : PredictQueue}
    {t : TtsTask} {c : Int}
    (heff : q.max_size.eff = some c) (hfull : (q.size : Int) ≥ c)
    (hp : t.priority = Priority.normal) :
    q.push t = ⟨false, Option.none, q⟩ := by
  simp [PredictQueue.push, heff, hfull, hp]

theorem PredictQueue.push_char_notFull_high {q : PredictQueue}
    {t : TtsTask} {c : Int}
    (heff : q.max_size.eff = some c) (hfull : ¬ (q.size : Int) ≥ c)
    (hp : t.priority = Priority.high) :
    q.push t = ⟨true, Option.none, { q with high := q.high ++ [t] }⟩ := by
  simp [PredictQueue.push, heff, hfull, hp]

theorem PredictQueue.push_char_notFull_normal {q : PredictQueue}
    {t : TtsTask} {c : Int}
    (heff : q.max_size.eff = some c) (hfull : ¬ (q.size : Int) ≥ c)
    (hp : t.priority = Priority.normal) :
    q.push t = ⟨true, Option.none, { q with normal := q.normal ++ [t] }⟩ := by
  simp [PredictQueue.push, heff, hfull, hp]

theorem PredictQueue.push_char_unbounded_high {q : PredictQueue} {t : TtsTask}
    (heff : q.max_size.eff = Option.none) (hp : t.priority = Priority.high) :
    q.push t = ⟨true, Option.none, { q with high := q.high ++ [t] }⟩ := by
  simp [PredictQueue.push, heff, hp]

theorem PredictQueue.push_char_unbounded_normal {q : PredictQueue} {t : TtsTask}
    (heff : q.max_size.eff = Option.none) (hp : t.priority = Priority.normal) :
    q.push t = ⟨true, Option.none, { q with normal := q.normal ++ [t] }⟩ := by
  simp [PredictQueue.push, heff, hp]

theorem PredictQueue.step_invariant {q : PredictQueue} {c : Int} (op : QOp)
    (hms : q.max_size = PyCap.int c) (hc : 0 < c)
    (hsz : (q.size : Int) ≤ c) :
    (q.step op).max_size = PyCap.int c ∧ ((q.step op).size : Int) ≤ c := by
  have heff : q.max_size.eff = some c := by simp [hms, PyCap.eff, hc]
  cases op with
  | push t =>
    by_cases hfull : (q.size : Int) ≥ c
    · cases hp : t.priority
      · rcases hn : q.normal with _ | ⟨v, nrest⟩
        · rcases hh : q.high with _ | ⟨w, hrest⟩
          · have hchar := PredictQueue.push_char_full_high_empty heff hfull hp hn hh
            simp only [PredictQueue.step, hchar]
            refine ⟨hms, ?_⟩
            have hone : ({ q with high := q.high ++ [t] } : PredictQueue).size = 1 := by
              simp [PredictQueue.size, hh, hn]
            rw [hone]
            omega
          · have hchar := PredictQueue.push_char_full_high_highCons heff hfull hp hn hh
            simp only [PredictQueue.step, hchar]
            refine ⟨hms, ?_⟩
            have : q.size = hrest.length + 1 + q.normal.length := by
              simp [PredictQueue.size, hh]
              try omega
            simp [PredictQueue.size, hn] at this hsz ⊢
            omega
        · have hchar := PredictQueue.push_char_full_high_normalCons heff hfull hp hn
          simp only [PredictQueue.step, hchar]
          refine ⟨hms, ?_⟩
          have : q.size = q.high.length + nrest.length + 1 := by
            simp [PredictQueue.size, hn]; omega
          simp [PredictQueue.size] at this hsz ⊢
          omega
      · have hchar := PredictQueue.push_char_full_normal heff hfull hp
        simp only [PredictQueue.step, hchar]
        exact ⟨hms, hsz⟩
    · cases hp : t.priority
      · have hchar := PredictQueue.push_char_notFull_high heff hfull hp
        simp only [PredictQueue.step, hchar]
        refine ⟨hms, ?_⟩
        simp [PredictQueue.size] at hsz hfull ⊢
        omega
      · have hchar := PredictQueue.push_char_notFull_normal heff hfull hp
        simp only [PredictQueue.step, hchar]
        refine ⟨hms, ?_⟩
        simp [PredictQueue.size] at hsz hfull ⊢
        omega
  | pop =>
    rcases hh : q.high with _ | ⟨w, hrest⟩
    · rcases hn : q.normal with _ | ⟨v, nrest⟩ <;>
        simp only [PredictQueue.step, PredictQueue.pop, hh, hn] <;>
        refine ⟨hms, ?_⟩ <;>
        simp [PredictQueue.size, hh, hn] at hsz ⊢ <;>
        omega
    · simp only [PredictQueue.step, PredictQueue.pop, hh]
      refine ⟨hms, ?_⟩
      simp [PredictQueue.size, hh] at hsz ⊢
      omega

theorem PredictQueue.run_invariant {c : Int} (hc : 0 < c) (ops : List QOp) :
    ∀ q : PredictQueue, q.max_size = PyCap.int c → (q.size : Int) ≤ c →
      ((q.run ops).size : Int) ≤ c := by
  induction ops with
  | nil => intro q _ hsz; simpa [PredictQueue.run] using hsz
  | cons op rest ih =>
    intro q hms hsz
    have h := PredictQueue.step_invariant op hms hc hsz
    simpa [PredictQueue.run] using ih (q.step op) h.1 h.2

theorem AudioQueue.push_char_full_cons {α : Type} {aq : AudioQueue α}
    {a : α} {t : TtsTask} {c : Int} {e : α × TtsTask} {rest : List (α × TtsTask)}
    (heff : aq.max_size.eff = some c) (hfull : (aq.q.length : Int) ≥ c)
    (hq : aq.q = e :: rest) :
    aq.push a t = (some e.2, { aq with q := rest ++ [(a, t)] }) := by
  simp [AudioQueue.push, heff, hq] at hfull ⊢
  omega

theorem AudioQueue.push_char_notFull {α : Type} {aq : AudioQueue α}
    {a : α} {t : TtsTask} {c : Int}
    (heff : aq.max_size.eff = some c) (hfull : ¬ (aq.q.length : Int) ≥ c) :
    aq.push a t = (Option.none, { aq with q := aq.q ++ [(a, t)] }) := by
  simp [AudioQueue.push, heff, hfull]

theorem AudioQueue.push_char_unbounded {α : Type} {aq : AudioQueue α}
    {a : α} {t : TtsTask}
    (heff : aq.max_size.eff = Option.none) :
    aq.push a t = (Option.none, { aq with q := aq.q ++ [(a, t)] }) := by
  simp [AudioQueue.push, heff]

theorem AudioQueue.step_len_bound {aq : AudioQueue Unit} {c : Int} (op : QOp)
    (hms : aq.max_size = PyCap.int c) (hc : 0 < c)
    (hsz : (aq.q.length : Int) ≤ c) :
    (aq.step op).max_size = PyCap.int c ∧ ((aq.step op).q.length : Int) ≤ c := by
  have heff : aq.max_size.eff = some c := by simp [hms, PyCap.eff, hc]
  cases op with
  | push t =>
    by_cases hfull : (aq.q.length : Int) ≥ c
    · rcases hq : aq.q with _ | ⟨e, rest⟩
      · rw [hq] at hfull
        simp at hfull
        omega
      · have hchar := @AudioQueue.push_char_full_cons Unit aq () t c e rest heff hfull hq
        simp only [AudioQueue.step, hchar]
        refine ⟨hms, ?_⟩
        rw [hq] at hsz
        simp at hsz ⊢
        omega
    · have hchar := @AudioQueue.push_char_notFull Unit aq () t c heff hfull
      simp only [AudioQueue.step, hchar]
      refine ⟨hms, ?_⟩
      simp at hfull ⊢
      omega
  | pop =>
    rcases hq : aq.q with _ | ⟨e, rest⟩ <;>
      simp only [AudioQueue.step, AudioQueue.pop, hq] <;>
      refine ⟨hms, ?_⟩ <;>
      rw [hq] at hsz <;>
      simp at hsz ⊢ <;>
      omega

theorem PredictQueue.drain_eq (q : PredictQueue) :
    q.drain = q.high ++ q.normal := by
  induction q using PredictQueue.drain.induct with
  | case1 q t q' hpop ih =>
    rw [PredictQueue.drain, hpop]
    show t :: q'.drain = q.high ++ q.normal
    rw [ih]
    unfold PredictQueue.pop at hpop
    rcases hh : q.high with _ | ⟨a, hrest⟩ <;> rw [hh] at hpop
    · rcases hn : q.normal with _ | ⟨b, nrest⟩ <;> rw [hn] at hpop
      · simp at hpop
      · simp at hpop
        simp [hpop.1, ← hpop.2]
    · simp at hpop
      simp [hpop.1, ← hpop.2]
  | case2 q hpop =>
    rw [PredictQueue.drain, hpop]
    unfold PredictQueue.pop at hpop
    rcases hh : q.high with _ | ⟨a, hrest⟩ <;> rw [hh] at hpop
    · rcases hn : q.normal with _ | ⟨b, nrest⟩ <;> rw [hn] at hpop
      · simp [hh, hn]
      · simp at hpop
    · simp at hpop

theorem AudioQueue.run_len_bound {c : Int} (hc : 0 < c) (ops : List QOp) :
    ∀ aq : AudioQueue Unit, aq.max_size = PyCap.int c →
      ((aq.q.length : Int)) ≤ c → (((aq.run ops).q.length : Int)) ≤ c := by
  induction ops with
  | nil => intro aq _ hsz; simpa [AudioQueue.run] using hsz
  | cons op rest ih =>
    intro aq hms hsz
    have h := AudioQueue.step_len_bound op hms hc hsz
    simpa [AudioQueue.run] using ih (aq.step op) h.1 h.2


theorem rstripSlashes_ensureSlash (s : String) :
    rstripSlashes (ensureSlash s) = rstripSlashes s := by
  unfold ensureSlash
  split
  · rfl
  · show rstripSlashes ⟨s.data ++ ['/']⟩ = rstripSlashes s
    unfold rstripSlashes
    simp [List.dropWhile]

theorem ensureClientAndModels_synced {g : HttpGlobal} {settings : PredictCfg}
    (b : Bool)
    (hbase : pyStrip (settings.gradio_server_url.getD "") ≠ "")
    (hsync : g.syncedWith settings) :
    ensureClientAndModels g settings b = (g, true, 0) := by
  obtain ⟨⟨cb, hcb, hrw⟩, hsig⟩ := hsync
  unfold ensureClientAndModels
  simp [hbase, hcb, hrw, hsig]
  rw [← hcb, ← hsig]

theorem ensureClientAndModels_establishes {g : HttpGlobal} {settings : PredictCfg}
    (hbase : pyStrip (settings.gradio_server_url.getD "") ≠ "") :
    (ensureClientAndModels g settings true).1.syncedWith settings := by
  unfold ensureClientAndModels
  rcases hcb : g.httpClient with _ | cl
  · simp [hbase, hcb, HttpGlobal.syncedWith, rstripSlashes_ensureSlash]
  · by_cases hrw : rstripSlashes cl.base_url =
        rstripSlashes (pyStrip (settings.gradio_server_url.getD ""))
    · by_cases hsig : g.selectedSig =
          some (settings.sig (pyStrip (settings.gradio_server_url.getD "")))
      · simp [hbase, hcb, hrw, hsig, HttpGlobal.syncedWith]
      · simp [hbase, hcb, hrw, hsig, HttpGlobal.syncedWith]
    · simp [hbase, hcb, hrw, HttpGlobal.syncedWith, rstripSlashes_ensureSlash]

theorem ensureClientAndModels_count_le_one (g : HttpGlobal)
    (settings : PredictCfg) (b : Bool) :
    (ensureClientAndModels g settings b).2.2 ≤ 1 := by
  unfold ensureClientAndModels
  by_cases hbase : pyStrip (settings.gradio_server_url.getD "") = ""
  · simp [hbase]
  · simp only [hbase, if_false]
    split
    · cases b <;> simp
    · split
      · simp
      · cases b <;> simp

theorem ensureClientRun_synced {settings : PredictCfg}
    (hbase : pyStrip (settings.gradio_server_url.getD "") ≠ "") (n : Nat) :
    ∀ g : HttpGlobal, g.syncedWith settings →
      ensureClientRun g (List.replicate n (settings, true)) = (g, 0) := by
  induction n with
  | zero => intro g _; rfl
  | succ m ih =>
    intro g hsync
    have hstep := ensureClientAndModels_synced true hbase hsync
    simp only [List.replicate, ensureClientRun, hstep]
    simp [ih g hsync]

theorem ensureClientRun_base_empty {settings : PredictCfg}
    (hbase : pyStrip (settings.gradio_server_url.getD "") = "") (n : Nat) (b : Bool) :
    ∀ g : HttpGlobal,
      ensureClientRun g (List.replicate n (settings, b)) = (g, 0) := by
  induction n with
  | zero => intro g; rfl
  | succ m ih =>
    intro g
    have hstep : ensureClientAndModels g settings b = (g, false, 0) := by
      unfold ensureClientAndModels
      simp [hbase]
    simp only [List.replicate, ensureClientRun, hstep]
    simp [ih g]

/-! The claim theorems. -/

/-- C3: for every fixed positive integer capacity C and every sequence
of pushes with any interleaved pops, started from an empty queue, the
total number of queued items (HIGH plus NORMAL for the predict queue,
the single sequence for the playback queue) never exceeds C. -/
theorem C3_occupancy_bounded (c : Int) (hc : 0 < c) (ops : List QOp) :
    (((PredictQueue.mk (PyCap.int c) [] []).run ops).size : Int) ≤ c ∧
    (((AudioQueue.mk (PyCap.int c) [] : AudioQueue Unit).run ops).q.length : Int)
      ≤ c := by
  constructor
  · exact PredictQueue.run_invariant hc ops _ rfl
      (by simp [PredictQueue.size]; omega)
  · exact AudioQueue.run_len_bound hc ops _ rfl (by simp; omega)

/-- Witness for C3 at capacity 2 and a concrete operation sequence that
overfills the queue with three pushes. -/
theorem C3_occupancy_bounded_witness :
    (0 : Int) < 2 ∧
    ((((PredictQueue.mk (PyCap.int 2) [] []).run
        [QOp.push ⟨"a", Priority.normal, Option.none, Option.none⟩,
         QOp.push ⟨"b", Priority.normal, Option.none, Option.none⟩,
         QOp.push ⟨"c", Priority.high, Option.none, Option.none⟩]).size : Int) ≤ 2 ∧
     (((AudioQueue.mk (PyCap.int 2) [] : AudioQueue Unit).run
        [QOp.push ⟨"a", Priority.normal, Option.none, Option.none⟩,
         QOp.push ⟨"b", Priority.normal, Option.none, Option.none⟩,
         QOp.push ⟨"c", Priority.high, Option.none, Option.none⟩]).q.length : Int) ≤ 2) :=
  ⟨by decide,
   C3_occupancy_bounded 2 (by decide)
     [QOp.push ⟨"a", Priority.normal, Option.none, Option.none⟩,
      QOp.push ⟨"b", Priority.normal, Option.none, Option.none⟩,
      QOp.push ⟨"c", Priority.high, Option.none, Option.none⟩]⟩

/-- C5: draining the queue by repeated pops returns every queued HIGH
item, in FIFO order, before any NORMAL item: the drain order is exactly
the HIGH sub-sequence followed by the NORMAL sub-sequence, so a NORMAL
item (however early it was pushed) is never popped while any HIGH item
remains queued. -/
theorem C5_high_drained_first (q : PredictQueue) :
    q.drain = q.high ++ q.normal :=
  PredictQueue.drain_eq q

/-- C6: pushing a NORMAL task onto a full predict queue returns accepted
= false and leaves both sub-sequences exactly unchanged. -/
theorem C6_normal_push_full_rejected (q : PredictQueue) (t : TtsTask) (c : Int)
    (heff : q.max_size.eff = some c) (hfull : (q.size : Int) ≥ c)
    (hp : t.priority = Priority.normal) :
    q.push t = ⟨false, Option.none, q⟩ :=
  PredictQueue.push_char_full_normal heff hfull hp

/-- Witness for C6: a queue of capacity 1 holding one NORMAL task rejects
a further NORMAL push unchanged. -/
theorem C6_normal_push_full_rejected_witness :
    (PredictQueue.mk (PyCap.int 1) []
        [⟨"a", Priority.normal, Option.none, Option.none⟩]).max_size.eff = some 1 ∧
    (((PredictQueue.mk (PyCap.int 1) []
        [⟨"a", Priority.normal, Option.none, Option.none⟩]).size : Int)) ≥ 1 ∧
    (⟨"b", Priority.normal, some "k", some 7⟩ : TtsTask).priority = Priority.normal ∧
    (PredictQueue.mk (PyCap.int 1) []
        [⟨"a", Priority.normal, Option.none, Option.none⟩]).push
        ⟨"b", Priority.normal, some "k", some 7⟩ =
      ⟨false, Option.none,
       PredictQueue.mk (PyCap.int 1) []
         [⟨"a", Priority.normal, Option.none, Option.none⟩]⟩ :=
  ⟨by decide, by decide, rfl,
   C6_normal_push_full_rejected _ _ 1 (by decide) (by decide) rfl⟩

/-- C7: for every popped task and every render outcome (winsound
succeeding, winsound failing with ffplay succeeding, failing, or
missing), the play worker emits exactly the two events playing then
done for that task: one playing before rendering, one done afterwards,
and never a cancelled. -/
theorem C7_playing_then_done (task : TtsTask) (outcome : RenderOutcome) :
    TTSService.play_worker_events task outcome =
      [⟨task.room_id, task.key, Status.playing⟩,
       ⟨task.room_id, task.key, Status.done⟩] := by
  cases outcome <;> rfl

/-- C10: whenever the stored capacity field is None, zero, negative, or
not an integer, both queues are unbounded: every predict push returns
true with no eviction, and every playback push admits with no
eviction, in every queue state. -/
theorem C10_no_cap_unbounded (q : PredictQueue) (aq : AudioQueue Unit)
    (t : TtsTask)
    (h1 : q.max_size.unbounded) (h2 : aq.max_size.unbounded) :
    (q.push t).accepted = true ∧ (q.push t).evicted = Option.none ∧
    (q.push t).queue.size = q.size + 1 ∧
    (aq.push () t).1 = Option.none ∧
    (aq.push () t).2.q = aq.q ++ [((), t)] := by
  have he1 : q.max_size.eff = Option.none := PyCap.eff_of_unbounded h1
  have he2 : aq.max_size.eff = Option.none := PyCap.eff_of_unbounded h2
  have hachar := @AudioQueue.push_char_unbounded Unit aq () t he2
  cases hp : t.priority
  · have hchar := PredictQueue.push_char_unbounded_high he1 hp
    rw [hchar, hachar]
    refine ⟨rfl, rfl, ?_, rfl, rfl⟩
    simp [PredictQueue.size]
    omega
  · have hchar := PredictQueue.push_char_unbounded_normal he1 hp
    rw [hchar, hachar]
    refine ⟨rfl, rfl, ?_, rfl, rfl⟩
    simp [PredictQueue.size]
    omega

/-- Witness for C10: a negative int capacity on the predict queue and a
non-int capacity on the playback queue both behave as unbounded. -/
theorem C10_no_cap_unbounded_witness :
    PyCap.unbounded (PredictQueue.mk (PyCap.int (-3))
        [⟨"h", Priority.high, Option.none, Option.none⟩] []).max_size ∧
    PyCap.unbounded (AudioQueue.mk PyCap.other
        [((), ⟨"x", Priority.normal, Option.none, Option.none⟩)] :
        AudioQueue Unit).max_size ∧
    ((PredictQueue.mk (PyCap.int (-3))
        [⟨"h", Priority.high, Option.none, Option.none⟩] []).push
        ⟨"n", Priority.normal, some "k", some 3⟩).accepted = true :=
  ⟨by decide, by decide,
   (C10_no_cap_unbounded
      (PredictQueue.mk (PyCap.int (-3))
        [⟨"h", Priority.high, Option.none, Option.none⟩] [])
      (AudioQueue.mk PyCap.other
        [((), ⟨"x", Priority.normal, Option.none, Option.none⟩)])
      ⟨"n", Priority.normal, some "k", some 3⟩
      (by decide) (by decide)).1⟩
/-- C8: across any number of consecutive calls with an unchanged
configuration whose remote load-weights calls succeed, the pair of
model-selection calls is issued at most once, from any starting state,
both in the predict worker coroutine and in the HTTP helper; once the
signature is memoized (and the client matches the base url) no further
pair is issued until the signature changes or the client is recreated. -/
theorem C8_select_at_most_once (st : PWState) (g : HttpGlobal)
    (cfg : PredictCfg) (n : Nat) :
    (ensureAndSelectRun st (List.replicate n (some cfg, true))).2 ≤ 1 ∧
    (ensureClientRun g (List.replicate n (cfg, true))).2 ≤ 1 := by
  constructor
  · cases n with
    | zero => simp [ensureAndSelectRun]
    | succ m =>
      by_cases hbase : pyStrip (cfg.gradio_server_url.getD "") = ""
      · rw [ensureAndSelectRun_base_empty hbase (m + 1) true st]
        simp
      · simp only [List.replicate, ensureAndSelectRun]
        have hsync := @ensureAndSelectModels_establishes st cfg hbase
        rw [ensureAndSelectRun_synced hbase m _ hsync]
        have hle := ensureAndSelectModels_count_le_one st (some cfg) true
        simpa using hle
  · cases n with
    | zero => simp [ensureClientRun]
    | succ m =>
      by_cases hbase : pyStrip (cfg.gradio_server_url.getD "") = ""
      · rw [ensureClientRun_base_empty hbase (m + 1) true g]
        simp
      · simp only [List.replicate, ensureClientRun]
        have hsync := @ensureClientAndModels_establishes g cfg hbase
        rw [ensureClientRun_synced hbase m _ hsync]
        have hle := ensureClientAndModels_count_le_one g cfg true
        simpa using hle

/-- C4: an enqueue of a HIGH task through the facade onto a full predict
queue is admitted (returns true) after evicting exactly one victim, the
oldest NORMAL item when any NORMAL item is queued, else the oldest HIGH
item; the eviction callback reports the victim and a cancelled status
event is emitted for it (before the pending event of the new task). -/
theorem C4_high_push_full_evicts (s : Settings) (q : PredictQueue) (c : Int)
    (text : String) (key : Option String) (room : Option Int)
    (hen : s.tts_enabled = true) (hcap : s.effCap = some c) (hc : 0 < c)
    (hfull : (q.size : Int) ≥ c) :
    (TTSService.enqueue_text s q text Priority.high key room).accepted = true ∧
    (∀ v nrest, q.normal = v :: nrest →
      TTSService.enqueue_text s q text Priority.high key room =
        ⟨true,
         ⟨PyCap.int c, q.high ++ [⟨text, Priority.high, key, room⟩], nrest⟩,
         [⟨v.room_id, v.key, Status.cancelled⟩,
          ⟨room, key, Status.pending⟩]⟩) ∧
    (∀ w hrest, q.normal = [] → q.high = w :: hrest →
      TTSService.enqueue_text s q text Priority.high key room =
        ⟨true,
         ⟨PyCap.int c, hrest ++ [⟨text, Priority.high, key, room⟩], []⟩,
         [⟨w.room_id, w.key, Status.cancelled⟩,
          ⟨room, key, Status.pending⟩]⟩) := by
  have heff1 : ((⟨PyCap.int c, q.high, q.normal⟩ : PredictQueue)).max_size.eff
      = some c := by
    simp [PyCap.eff, hc]
  have hfull1 : (((⟨PyCap.int c, q.high, q.normal⟩ : PredictQueue)).size : Int)
      ≥ c := by
    simpa [PredictQueue.size] using hfull
  refine ⟨?_, ?_, ?_⟩
  · rcases hn : q.normal with _ | ⟨v, nrest⟩
    · rcases hh : q.high with _ | ⟨w, hrest⟩
      · exfalso
        simp [PredictQueue.size, hn, hh] at hfull
        omega
      · have hchar := @PredictQueue.push_char_full_high_highCons
          ⟨PyCap.int c, q.high, q.normal⟩ ⟨text, Priority.high, key, room⟩
          c w hrest heff1 hfull1 rfl hn hh
        unfold TTSService.enqueue_text
        simp [hen, hcap, hchar]
    · have hchar := @PredictQueue.push_char_full_high_normalCons
        ⟨PyCap.int c, q.high, q.normal⟩ ⟨text, Priority.high, key, room⟩
        c v nrest heff1 hfull1 rfl hn
      unfold TTSService.enqueue_text
      simp [hen, hcap, hchar]
  · intro v nrest hn
    have hchar := @PredictQueue.push_char_full_high_normalCons
      ⟨PyCap.int c, q.high, q.normal⟩ ⟨text, Priority.high, key, room⟩
      c v nrest heff1 hfull1 rfl hn
    unfold TTSService.enqueue_text
    simp [hen, hcap, hchar]
  · intro w hrest hn hh
    have hchar := @PredictQueue.push_char_full_high_highCons
      ⟨PyCap.int c, q.high, q.normal⟩ ⟨text, Priority.high, key, room⟩
      c w hrest heff1 hfull1 rfl hn hh
    unfold TTSService.enqueue_text
    simp [hen, hcap, hchar] <;> simp [hn]

/-- Witness for C4: capacity 1, one queued NORMAL task with a key; a HIGH
enqueue evicts it, emits cancelled for it and pending for itself. -/
theorem C4_high_push_full_evicts_witness :
    (⟨true, some 1, Option.none⟩ : Settings).tts_enabled = true ∧
    (⟨true, some 1, Option.none⟩ : Settings).effCap = some 1 ∧
    (0 : Int) < 1 ∧
    (((⟨PyCap.none, [], [⟨"old", Priority.normal, some "ko", some 5⟩]⟩ :
        PredictQueue)).size : Int) ≥ 1 ∧
    TTSService.enqueue_text ⟨true, some 1, Option.none⟩
        ⟨PyCap.none, [], [⟨"old", Priority.normal, some "ko", some 5⟩]⟩
        "new" Priority.high (some "kn") (some 6) =
      ⟨true,
       ⟨PyCap.int 1, [⟨"new", Priority.high, some "kn", some 6⟩], []⟩,
       [⟨some 5, some "ko", Status.cancelled⟩,
        ⟨some 6, some "kn", Status.pending⟩]⟩ :=
  ⟨rfl, by decide, by decide, by decide,
   (C4_high_push_full_evicts ⟨true, some 1, Option.none⟩
      ⟨PyCap.none, [], [⟨"old", Priority.normal, some "ko", some 5⟩]⟩ 1
      "new" (some "kn") (some 6) rfl (by decide) (by decide) (by decide)).2.1
     ⟨"old", Priority.normal, some "ko", some 5⟩ [] rfl⟩

/-- C1 counterexample: with the service enabled and a full queue of
capacity 1, a NORMAL enqueue carrying a non-null key is rejected (push
returns false) yet the facade emits a cancelled status event for the
task, so a pure rejection is not silent when the key is non-null. -/
theorem C1_counterexample :
    (TTSService.enqueue_text ⟨true, some 1, Option.none⟩
        ⟨PyCap.none, [], [⟨"old", Priority.normal, Option.none, Option.none⟩]⟩
        "new" Priority.normal (some "k") (some 7)).accepted = false ∧
    (TTSService.enqueue_text ⟨true, some 1, Option.none⟩
        ⟨PyCap.none, [], [⟨"old", Priority.normal, Option.none, Option.none⟩]⟩
        "new" Priority.normal (some "k") (some 7)).events =
      [⟨some 7, some "k", Status.cancelled⟩] := by
  decide

/-- C1 amended: a NORMAL enqueue that the push rejects (returns false,
with the service enabled) emits no status event at all when the task's
key is None, and emits exactly one cancelled event for the task (and no
pending event) when the key is non-null. -/
theorem C1_rejected_emission (s : Settings) (q : PredictQueue) (text : String)
    (key : Option String) (room : Option Int)
    (hen : s.tts_enabled = true)
    (hrej : (TTSService.enqueue_text s q text Priority.normal key room).accepted
      = false) :
    (TTSService.enqueue_text s q text Priority.normal key room).events =
      (match key with
       | some k => [⟨room, some k, Status.cancelled⟩]
       | Option.none => []) := by
  rcases hcap : s.effCap with _ | n <;>
    unfold TTSService.enqueue_text at hrej ⊢ <;>
    simp only [hen, Bool.true_eq_false, if_false, hcap] at hrej ⊢
  · by_cases hacc :
        (({ q with max_size := PyCap.none } : PredictQueue).push
          ⟨text, Priority.normal, key, room⟩).accepted = true
    · simp [hacc] at hrej
    · have hr := PredictQueue.push_rejected (Bool.eq_false_iff.mpr hacc)
      simp [hr]
      cases key <;> simp
  · by_cases hacc :
        (({ q with max_size := PyCap.int n } : PredictQueue).push
          ⟨text, Priority.normal, key, room⟩).accepted = true
    · simp [hacc] at hrej
    · have hr := PredictQueue.push_rejected (Bool.eq_false_iff.mpr hacc)
      simp [hr]
      cases key <;> simp

/-- Witness for C1 amended: the same full queue rejection with key None
emits nothing. -/
theorem C1_rejected_emission_witness :
    (⟨true, some 1, Option.none⟩ : Settings).tts_enabled = true ∧
    (TTSService.enqueue_text ⟨true, some 1, Option.none⟩
        ⟨PyCap.none, [], [⟨"old", Priority.normal, Option.none, Option.none⟩]⟩
        "new" Priority.normal Option.none (some 7)).accepted = false ∧
    (TTSService.enqueue_text ⟨true, some 1, Option.none⟩
        ⟨PyCap.none, [], [⟨"old", Priority.normal, Option.none, Option.none⟩]⟩
        "new" Priority.normal Option.none (some 7)).events = [] :=
  ⟨rfl, by decide,
   C1_rejected_emission ⟨true, some 1, Option.none⟩
     ⟨PyCap.none, [], [⟨"old", Priority.normal, Option.none, Option.none⟩]⟩
     "new" Option.none (some 7) rfl (by decide)⟩

/-- C2 counterexample: capacity 1, one queued NORMAL task in each queue;
a further NORMAL push is rejected by the predict queue (contents
unchanged) but admitted by the playback queue, which instead evicts the
oldest item regardless of priority — the two queues do not behave
identically. -/
theorem C2_counterexample :
    ((PredictQueue.mk (PyCap.int 1) []
        [⟨"one", Priority.normal, some "k1", some 1⟩]).push
        ⟨"two", Priority.normal, some "k2", some 1⟩).accepted = false ∧
    ((PredictQueue.mk (PyCap.int 1) []
        [⟨"one", Priority.normal, some "k1", some 1⟩]).push
        ⟨"two", Priority.normal, some "k2", some 1⟩).queue =
      PredictQueue.mk (PyCap.int 1) []
        [⟨"one", Priority.normal, some "k1", some 1⟩] ∧
    ((AudioQueue.mk (PyCap.int 1)
        [((), ⟨"one", Priority.normal, some "k1", some 1⟩)] :
        AudioQueue Unit).push () ⟨"two", Priority.normal, some "k2", some 1⟩).1 =
      some ⟨"one", Priority.normal, some "k1", some 1⟩ ∧
    ((AudioQueue.mk (PyCap.int 1)
        [((), ⟨"one", Priority.normal, some "k1", some 1⟩)] :
        AudioQueue Unit).push () ⟨"two", Priority.normal, some "k2", some 1⟩).2.q =
      [((), ⟨"two", Priority.normal, some "k2", some 1⟩)] ∧
    ¬ audioPushMatchesPredict
        (PredictQueue.mk (PyCap.int 1) []
          [⟨"one", Priority.normal, some "k1", some 1⟩])
        (AudioQueue.mk (PyCap.int 1)
          [((), ⟨"one", Priority.normal, some "k1", some 1⟩)])
        ⟨"two", Priority.normal, some "k2", some 1⟩ := by
  refine ⟨by decide, by decide, by decide, by decide, ?_⟩
  intro h
  have := h.2 (by decide)
  exact absurd this.1 (by decide)

/-- C2 amended: the playback queue shares the capacity interpretation
with the predict queue but is a single-level FIFO with a drop-oldest
policy: a push onto a full playback queue always admits the new pair and
evicts the oldest queued pair regardless of priority (its task goes to
the eviction callback), a NORMAL push is never rejected, and pop returns
pairs in insertion order. -/
theorem C2_audio_single_fifo {α : Type} (aq : AudioQueue α) (a : α)
    (t : TtsTask) (c : Int) (e : α × TtsTask) (rest : List (α × TtsTask))
    (hcap : aq.max_size.eff = some c) (hfull : (aq.q.length : Int) ≥ c)
    (hq : aq.q = e :: rest) :
    aq.push a t = (some e.2, { aq with q := rest ++ [(a, t)] }) ∧
    aq.pop = some (e, { aq with q := rest }) := by
  refine ⟨AudioQueue.push_char_full_cons hcap hfull hq, ?_⟩
  simp [AudioQueue.pop, hq]

/-- Witness for C2 amended at the counterexample state. -/
theorem C2_audio_single_fifo_witness :
    (AudioQueue.mk (PyCap.int 1)
        [((), ⟨"one", Priority.normal, some "k1", some 1⟩)] :
        AudioQueue Unit).max_size.eff = some 1 ∧
    (((AudioQueue.mk (PyCap.int 1)
        [((), ⟨"one", Priority.normal, some "k1", some 1⟩)] :
        AudioQueue Unit)).q.length : Int) ≥ 1 ∧
    ((AudioQueue.mk (PyCap.int 1)
        [((), ⟨"one", Priority.normal, some "k1", some 1⟩)] :
        AudioQueue Unit)).push () ⟨"two", Priority.normal, some "k2", some 1⟩ =
      (some ⟨"one", Priority.normal, some "k1", some 1⟩,
       AudioQueue.mk (PyCap.int 1)
         [((), ⟨"two", Priority.normal, some "k2", some 1⟩)]) :=
  ⟨by decide, by decide,
   (C2_audio_single_fifo
      (AudioQueue.mk (PyCap.int 1)
        [((), ⟨"one", Priority.normal, some "k1", some 1⟩)]) ()
      ⟨"two", Priority.normal, some "k2", some 1⟩ 1
      ((), ⟨"one", Priority.normal, some "k1", some 1⟩) []
      (by decide) (by decide) rfl).1⟩

/-- C9 counterexample: probing an unreachable url (the GET raises) does
return ok false, ready false with a message and does not throw, but it
modifies the cached state: the memoized model-selection signature is
cleared and the cached client session is closed, so the probe is not
side-effect free on the cached client and selection state. -/
theorem C9_counterexample :
    (gradio_health ⟨some "http://x", "sv", "gp", "zh"⟩
        (ProbeOutcome.exn "refused")
        ⟨some ⟨"http://x/", true⟩, some ("http://x", "sv", "gp", "zh")⟩).1 =
      ⟨false, false, "http://x", some "refused"⟩ ∧
    (gradio_health ⟨some "http://x", "sv", "gp", "zh"⟩
        (ProbeOutcome.exn "refused")
        ⟨some ⟨"http://x/", true⟩, some ("http://x", "sv", "gp", "zh")⟩).2.selectedSig
      = Option.none ∧
    (gradio_health ⟨some "http://x", "sv", "gp", "zh"⟩
        (ProbeOutcome.exn "refused")
        ⟨some ⟨"http://x/", true⟩, some ("http://x", "sv", "gp", "zh")⟩).2.httpClient
      = some ⟨"http://x/", false⟩ ∧
    (gradio_health ⟨some "http://x", "sv", "gp", "zh"⟩
        (ProbeOutcome.exn "refused")
        ⟨some ⟨"http://x/", true⟩, some ("http://x", "sv", "gp", "zh")⟩).2 ≠
      ⟨some ⟨"http://x/", true⟩, some ("http://x", "sv", "gp", "zh")⟩ := by
  decide

/-- C9 amended: for every configured (non-empty) server url, when the
probe GET raises, the probe returns ok false and ready false together
with the exception message and does not throw; the request runs on a
fresh session rather than the cached client, but the failure branch
clears the cached model-selection signature and closes the cached client
session. -/
theorem C9_health_probe_failure (settings : PredictCfg) (g : HttpGlobal)
    (msg : String)
    (hbase : pyStrip (settings.gradio_server_url.getD "") ≠ "") :
    gradio_health settings (ProbeOutcome.exn msg) g =
      (⟨false, false, pyStrip (settings.gradio_server_url.getD ""), some msg⟩,
       ⟨g.httpClient.map (fun c => ⟨c.base_url, false⟩), Option.none⟩) := by
  unfold gradio_health
  simp [hbase]

/-- Witness for C9 amended at the counterexample input. -/
theorem C9_health_probe_failure_witness :
    pyStrip ((⟨some "http://x", "sv", "gp", "zh"⟩ :
        PredictCfg).gradio_server_url.getD "") ≠ "" ∧
    gradio_health ⟨some "http://x", "sv", "gp", "zh"⟩
        (ProbeOutcome.exn "timeout")
        ⟨Option.none, some ("http://x", "sv", "gp", "zh")⟩ =
      (⟨false, false, "http://x", some "timeout"⟩,
       ⟨Option.none, Option.none⟩) :=
  ⟨by decide,
   C9_health_probe_failure ⟨some "http://x", "sv", "gp", "zh"⟩
     ⟨Option.none, some ("http://x", "sv", "gp", "zh")⟩ "timeout" (by decide)⟩
